import Mathlib

/-
  Verification of the crays-web payment code.

  This file gives a shallow embedding of the payment-dispatch and wallet-service
  code of the repository (src/lib/zap.ts, src/lib/breez/breezService.ts and the
  mnemonic-encryption helper) and proves the properties claimed of it.

  External effects (network fetches, relay traffic, the wallet engine, the
  browser extension, randomness) are supplied as explicit oracle/environment
  values, so every function is a pure, executable Lean definition whose control
  flow mirrors the TypeScript source line by line.
-/

/-! ## Zap dispatch (src/lib/zap.ts) -/

/-- The three payment rails tried by the dispatch, in source order. -/
inductive Rail
  | breez
  | nwc
  | webln
deriving DecidableEq, Repr

/-- The JSON body returned by the LNURL endpoint fetch in getZapEndpoint.
`nostrPubkey = none` models a missing or falsy (empty) field, and likewise
for `callback`. -/
structure LnurlBody where
  allowsNostr : Bool
  nostrPubkey : Option String
  callback : Option String
deriving DecidableEq, Repr

/-- Builds the LNURL from a lud16 Lightning address, as in getZapEndpoint:
the string is split at the first at-sign into name and domain and interpolated
into the well-known URL.  When the split yields no second component, JS
interpolates the literal text undefined, which the model reproduces. -/
def lud16ToLnurl (lud16 : String) : String :=
  let parts := lud16.splitOn "@"
  let name := (parts.get? 0).getD ""
  let domain := (parts.get? 1).getD "undefined"
  "https://" ++ domain ++ "/.well-known/lnurlp/" ++ name

/-- getZapEndpoint from zap.ts.  `lud16 = none` models an absent or empty
lud16 field; `lud06decoded` is the bech32-decoded lud06 URL, `none` when
lud06 is absent/empty or its decoding throws (which the catch turns into a
null return); `lnurlFetch` is the fetched JSON body, `none` when the fetch
throws or responds not-ok.  The endpoint is returned only when the body has
a truthy allowsNostr and nostrPubkey. -/
def getZapEndpoint (lud16 : Option String) (lud06decoded : Option String)
    (lnurlFetch : Option LnurlBody) : Option String :=
  let lnurl : Option String :=
    match lud16 with
    | some l => some (lud16ToLnurl l)
    | none => lud06decoded
  match lnurl with
  | none => none
  | some _ =>
    match lnurlFetch with
    | none => none
    | some body =>
      if body.allowsNostr && body.nostrPubkey.isSome then body.callback
      else none

/-- Environment of payWithBreez: whether getBreezService yields a service with
a payInvoice function, and what that call produces (`none` = it threw;
otherwise the truthiness of res.success and of res.status being paid). -/
structure BreezPayEnv where
  available : Bool
  payResult : Option (Bool × Bool)
deriving DecidableEq, Repr

/-- payWithBreez from zap.ts: returns false when the service is unavailable,
when the payment call throws, or when the result is neither success nor
status paid; it never throws. -/
def payWithBreez (e : BreezPayEnv) : Bool :=
  if !e.available then false
  else
    match e.payResult with
    | none => false
    | some (succ, paid) => succ || paid

/-- Environment of one zapNote/zapStream call: the recipient metadata and the
outcomes of every external call the dispatch makes, in source order. -/
structure ZapEnv where
  lud16 : Option String
  lud06decoded : Option String
  lnurlFetch : Option LnurlBody
  /-- signEvent on the zap request succeeds -/
  signOk : Bool
  /-- the pr field of the LNURL callback fetch; `none` = fetch or json threw -/
  invoiceFetch : Option String
  /-- environment of the payWithBreez call -/
  breez : BreezPayEnv
  /-- the boolean returned by zapOverNWC (it never throws) -/
  nwcPaid : Bool
  /-- enableWebLn resolves -/
  weblnEnableOk : Bool
  /-- sendPayment over WebLN resolves -/
  weblnPayOk : Bool
deriving DecidableEq, Repr

/-- Result of a dispatch call: the success flag of the returned record, plus
two ghost observations: the rails invoked, in order, and whether the LNURL
callback was fetched (the invoice request). -/
structure ZapOutcome where
  success : Bool
  rails : List Rail
  invoiceRequested : Bool
deriving DecidableEq, Repr

/-- Shared rail-dispatch tail of zapNote and zapStream, lines 137-149 and
203-215 of zap.ts: try Breez when useBreez is set and return on its success;
otherwise, when a non-empty NWC credential is supplied, return zapOverNWC's
verdict directly; otherwise attempt WebLN.  An exception from enableWebLn or
sendPayment is caught by the enclosing try and yields success = false. -/
def dispatchRails (env : ZapEnv) (nwc : Option (String × String))
    (useBreez : Bool) : ZapOutcome :=
  if useBreez && payWithBreez env.breez then ⟨true, [Rail.breez], true⟩
  else
    let tried := if useBreez then [Rail.breez] else []
    match nwc with
    | some (_, cred) =>
      if 0 < cred.length then ⟨env.nwcPaid, tried ++ [Rail.nwc], true⟩
      else ⟨env.weblnEnableOk && env.weblnPayOk, tried ++ [Rail.webln], true⟩
    | none => ⟨env.weblnEnableOk && env.weblnPayOk, tried ++ [Rail.webln], true⟩

/-- zapNote from zap.ts.  `senderPresent`/`userPresent` are the truthiness of
the sender and note.user arguments; the zap-request construction and signing
and the callback fetch happen before any rail is attempted. -/
def zapNote (senderPresent userPresent : Bool) (env : ZapEnv)
    (nwc : Option (String × String)) (useBreez : Bool) : ZapOutcome :=
  if !senderPresent || !userPresent then ⟨false, [], false⟩
  else
    match getZapEndpoint env.lud16 env.lud06decoded env.lnurlFetch with
    | none => ⟨false, [], false⟩
    | some _ =>
      if !env.signOk then ⟨false, [], false⟩
      else
        match env.invoiceFetch with
        | none => ⟨false, [], true⟩
        | some _ => dispatchRails env nwc useBreez

/-- zapStream from zap.ts: identical dispatch structure, with the host user
in place of note.user (the extra a-tag on the request does not affect the
rail logic). -/
def zapStream (senderPresent hostPresent : Bool) (env : ZapEnv)
    (nwc : Option (String × String)) (useBreez : Bool) : ZapOutcome :=
  if !senderPresent || !hostPresent then ⟨false, [], false⟩
  else
    match getZapEndpoint env.lud16 env.lud06decoded env.lnurlFetch with
    | none => ⟨false, [], false⟩
    | some _ =>
      if !env.signOk then ⟨false, [], false⟩
      else
        match env.invoiceFetch with
        | none => ⟨false, [], true⟩
        | some _ => dispatchRails env nwc useBreez

/-- The rail the dispatch falls to when Breez did not settle the call. -/
def fallbackRail (nwc : Option (String × String)) : List Rail :=
  match nwc with
  | some (_, cred) => if 0 < cred.length then [Rail.nwc] else [Rail.webln]
  | none => [Rail.webln]

/-! ### Claims C1, C2, C3 -/

/-- C2: for every zap dispatch call the payment rails are attempted in the
fixed priority order embedded wallet (only when the prefer-embedded flag is
set), then NWC (only when a non-empty credential was supplied), then WebLN;
and when the embedded-wallet rail reports success the dispatch returns
success without invoking the NWC or WebLN rails.  zapStream dispatches
identically. -/
theorem zap_rail_priority_order (env : ZapEnv) (nwc : Option (String × String))
    (useBreez : Bool)
    (hres : (getZapEndpoint env.lud16 env.lud06decoded env.lnurlFetch).isSome = true)
    (hsign : env.signOk = true)
    (hinv : env.invoiceFetch.isSome = true) :
    (zapNote true true env nwc useBreez).rails =
      (if useBreez then [Rail.breez] else []) ++
        (if useBreez && payWithBreez env.breez then [] else fallbackRail nwc)
    ∧ (useBreez = true → payWithBreez env.breez = true →
        zapNote true true env nwc useBreez = ⟨true, [Rail.breez], true⟩)
    ∧ zapStream true true env nwc useBreez = zapNote true true env nwc useBreez := by
  obtain ⟨cb, hcb⟩ := Option.isSome_iff_exists.mp hres
  obtain ⟨pr, hpr⟩ := Option.isSome_iff_exists.mp hinv
  refine ⟨?_, ?_, ?_⟩
  · simp only [zapNote, hcb, hsign, hpr, dispatchRails, fallbackRail,
      Bool.not_true, Bool.false_or, if_false]
    cases useBreez
    · simp only [Bool.false_and, if_false, List.nil_append]
      rcases nwc with _ | ⟨u, c⟩
      · simp
      · by_cases hc : 0 < c.length <;> simp [hc]
    · cases hpb : payWithBreez env.breez
      · simp only [Bool.true_and, hpb, if_false, if_true]
        rcases nwc with _ | ⟨u, c⟩
        · simp
        · by_cases hc : 0 < c.length <;> simp [hc]
      · simp [hpb]
  · intro hu hpb
    simp [zapNote, hcb, hsign, hpr, dispatchRails, hu, hpb]
  · simp [zapNote, zapStream, hcb, hsign, hpr]

/-- Witness for C2 at a concrete input: with the embedded rail preferred and
succeeding, the dispatch returns success having attempted the Breez rail
only. -/
theorem zap_rail_priority_order_witness :
    zapNote true true
        ⟨some "alice@example.com", none, some ⟨true, some "9fabc", some "https://cb.example"⟩,
          true, some "lnbc10n1xyz", ⟨true, some (true, false)⟩, false, true, true⟩
        (some ("nostr+walletconnect://abc", "secret")) true
      = ⟨true, [Rail.breez], true⟩ := by
  exact (zap_rail_priority_order
    ⟨some "alice@example.com", none, some ⟨true, some "9fabc", some "https://cb.example"⟩,
      true, some "lnbc10n1xyz", ⟨true, some (true, false)⟩, false, true, true⟩
    (some ("nostr+walletconnect://abc", "secret")) true
    (by decide) (by decide) (by decide)).2.1 rfl (by decide)

/-- C1 counterexample: embedded rail not preferred, a non-empty NWC credential
supplied, and the NWC rail reports failure (zapOverNWC returns false after the
relay answered with an error); the dispatch returns success = false having
attempted only the NWC rail — the WebLN rail (which here would have
succeeded) is never invoked, for zapNote and zapStream alike. -/
theorem zapNote_nwc_error_no_webln_cex :
    zapNote true true
        ⟨some "alice@example.com", none, some ⟨true, some "9fabc", some "https://cb.example"⟩,
          true, some "lnbc10n1xyz", ⟨false, none⟩, false, true, true⟩
        (some ("nostr+walletconnect://abc", "nwcsecret")) false
      = ⟨false, [Rail.nwc], true⟩
    ∧ zapStream true true
        ⟨some "alice@example.com", none, some ⟨true, some "9fabc", some "https://cb.example"⟩,
          true, some "lnbc10n1xyz", ⟨false, none⟩, false, true, true⟩
        (some ("nostr+walletconnect://abc", "nwcsecret")) false
      = ⟨false, [Rail.nwc], true⟩ := by
  constructor <;> rfl

/-- C1 amended: when the embedded-wallet rail fails or is not preferred, a
non-empty NWC credential is supplied and the NWC rail reports failure, the
dispatch returns that failure immediately — the WebLN rail is never
attempted. -/
theorem zapNote_nwc_failure_is_terminal (env : ZapEnv) (uri cred : String)
    (useBreez : Bool)
    (hres : (getZapEndpoint env.lud16 env.lud06decoded env.lnurlFetch).isSome = true)
    (hsign : env.signOk = true)
    (hinv : env.invoiceFetch.isSome = true)
    (hcred : 0 < cred.length)
    (hnwc : env.nwcPaid = false)
    (hbz : useBreez = false ∨ payWithBreez env.breez = false) :
    zapNote true true env (some (uri, cred)) useBreez
      = ⟨false, (if useBreez then [Rail.breez] else []) ++ [Rail.nwc], true⟩
    ∧ Rail.webln ∉ (zapNote true true env (some (uri, cred)) useBreez).rails
    ∧ zapStream true true env (some (uri, cred)) useBreez
        = zapNote true true env (some (uri, cred)) useBreez := by
  obtain ⟨cb, hcb⟩ := Option.isSome_iff_exists.mp hres
  obtain ⟨pr, hpr⟩ := Option.isSome_iff_exists.mp hinv
  have hno : (useBreez && payWithBreez env.breez) = false := by
    rcases hbz with h | h <;> simp [h]
  have h1 : zapNote true true env (some (uri, cred)) useBreez
      = ⟨false, (if useBreez then [Rail.breez] else []) ++ [Rail.nwc], true⟩ := by
    cases useBreez <;>
      simp_all [zapNote, dispatchRails, hcb, hsign, hpr, hcred, hnwc]
  refine ⟨h1, ?_, ?_⟩
  · rw [h1]
    cases useBreez <;> simp
  · simp [zapNote, zapStream, hcb, hsign, hpr]

/-- Witness for the amended C1 at a concrete input. -/
theorem zapNote_nwc_failure_is_terminal_witness :
    zapNote true true
        ⟨some "bob@example.com", none, some ⟨true, some "9fabc", some "https://cb.example"⟩,
          true, some "lnbc20n1xyz", ⟨true, some (false, false)⟩, false, true, true⟩
        (some ("nostr+walletconnect://abc", "nwcsecret")) true
      = ⟨false, [Rail.breez, Rail.nwc], true⟩ := by
  have h := zapNote_nwc_failure_is_terminal
    ⟨some "bob@example.com", none, some ⟨true, some "9fabc", some "https://cb.example"⟩,
      true, some "lnbc20n1xyz", ⟨true, some (false, false)⟩, false, true, true⟩
    "nostr+walletconnect://abc" "nwcsecret" true
    (by decide) (by decide) (by decide) (by decide) (by decide) (Or.inr (by decide))
  simpa using h.1

/-- C3: when the recipient's payment endpoint cannot be resolved — no
Lightning address at all, a failed LNURL fetch, or a response that does not
advertise Nostr zaps — the dispatch returns failure without invoking any
payment rail and without requesting an invoice. -/
theorem zap_unresolved_endpoint_no_payment (env : ZapEnv)
    (nwc : Option (String × String)) (useBreez : Bool) :
    (getZapEndpoint env.lud16 env.lud06decoded env.lnurlFetch = none →
      zapNote true true env nwc useBreez = ⟨false, [], false⟩
      ∧ zapStream true true env nwc useBreez = ⟨false, [], false⟩)
    ∧ (env.lud16 = none → env.lud06decoded = none →
        getZapEndpoint env.lud16 env.lud06decoded env.lnurlFetch = none)
    ∧ (env.lnurlFetch = none →
        getZapEndpoint env.lud16 env.lud06decoded env.lnurlFetch = none)
    ∧ (∀ body, env.lnurlFetch = some body →
        body.allowsNostr = false ∨ body.nostrPubkey = none →
        getZapEndpoint env.lud16 env.lud06decoded env.lnurlFetch = none) := by
  refine ⟨fun h => ?_, fun h16 h06 => ?_, fun hf => ?_, fun body hb hbad => ?_⟩
  · constructor <;> simp [zapNote, zapStream, h]
  · simp [getZapEndpoint, h16, h06]
  · simp only [getZapEndpoint, hf]
    rcases env.lud16 with _ | l
    · rcases env.lud06decoded with _ | d <;> rfl
    · rfl
  · simp only [getZapEndpoint, hb]
    have : (body.allowsNostr && body.nostrPubkey.isSome) = false := by
      rcases hbad with h | h <;> simp [h]
    rcases env.lud16 with _ | l
    · rcases env.lud06decoded with _ | d
      · rfl
      · simp [this]
    · simp [this]

/-- Witness for C3 at a concrete input: a recipient with neither lud16 nor
lud06 resolves to no endpoint, and the dispatch stops with no rail attempted
and no invoice requested. -/
theorem zap_unresolved_endpoint_no_payment_witness :
    getZapEndpoint none none none = none
    ∧ zapNote true true ⟨none, none, none, true, some "lnbc1xyz", ⟨true, some (true, true)⟩, true, true, true⟩
        (some ("nostr+walletconnect://abc", "secret")) true = ⟨false, [], false⟩ := by
  have h := zap_unresolved_endpoint_no_payment
    ⟨none, none, none, true, some "lnbc1xyz", ⟨true, some (true, true)⟩, true, true, true⟩
    (some ("nostr+walletconnect://abc", "secret")) true
  have h0 : getZapEndpoint none none none = none := h.2.1 rfl rfl
  exact ⟨h0, (h.1 h0).1⟩

/-! ## zapOverNWC (src/lib/zap.ts lines 29-94) -/

/-- The decrypted and JSON-parsed content of a kind-23195 relay event:
the result_type string, the truthiness of the result field, and the error
field when present. -/
structure NwcResponse where
  result_type : String
  result : Bool
  error : Option String
deriving DecidableEq, Repr

/-- One event delivered to a relay subscription: either its content decrypts
and parses (`ok`), or nip04 decryption / JSON parsing throws (`malformed`). -/
inductive NwcMsg
  | ok (r : NwcResponse)
  | malformed
deriving DecidableEq, Repr

/-- An event together with its arrival time in milliseconds after the
subscription and timer were set up. -/
structure NwcEvent where
  time : Nat
  msg : NwcMsg
deriving DecidableEq, Repr

/-- The per-relay timeout of zapOverNWC, in milliseconds. -/
def nwcTimeoutMs : Nat := 30000

/-- What the sub.on event handler does with one message while the relay
promise is unresolved: a pay_invoice result resolves true, an error field
resolves false, a decryption/parse exception resolves false, and any other
message leaves the promise pending. -/
def handleNwcEvent : NwcMsg → Option Bool
  | .malformed => some false
  | .ok r =>
    if r.result_type == "pay_invoice" && r.result then some true
    else if r.error.isSome then some false
    else none

/-- One relay's promise: scanning its events in arrival order, the first
event the handler resolves on fixes the verdict and the settle time; the
30-second timer resolves false at 30000 ms when no earlier event did
(events arriving at or after the timer find the resolved flag set and are
ignored). -/
def relayRun : List NwcEvent → Bool × Nat
  | [] => (false, nwcTimeoutMs)
  | e :: rest =>
    if nwcTimeoutMs ≤ e.time then (false, nwcTimeoutMs)
    else
      match handleNwcEvent e.msg with
      | some v => (v, e.time)
      | none => relayRun rest

/-- Promise.race over the per-relay promises: the earliest settlement wins,
the earlier relay being preferred on a tie (its resolution was enqueued
first).  Promise.race of an empty list never settles and zapOverNWC then
never returns, so the degenerate value for [] is never observed. -/
def raceSettle : List (Bool × Nat) → Bool × Nat
  | [] => (false, nwcTimeoutMs)
  | [s] => s
  | s :: rest => if s.2 ≤ (raceSettle rest).2 then s else raceSettle rest

/-- The primitive relay operations observable from outside zapOverNWC. -/
inductive RelayAction
  | connectAct (i : Nat)
  | publishAct (i : Nat)
  | closeAct (i : Nat)
deriving DecidableEq, Repr

/-- Behaviour of one relay during the call: whether relay.connect() resolves,
whether relay.publish(signed) resolves, and the events later delivered to its
subscription in arrival order. -/
structure NwcRelaySpec where
  connectOk : Bool
  publishOk : Bool
  events : List NwcEvent
deriving DecidableEq, Repr

/-- The for-loop of zapOverNWC over nwcConfig.relays, starting at relay
index i: each iteration awaits relay.connect(), pushes the relay onto
`relays` (it is now opened), registers the subscription promise and awaits
relay.publish; a rejection of connect or publish raises into the enclosing
catch, ending the loop.  Returns whether the loop completed, the indices
pushed onto `relays`, and the connect/publish actions performed. -/
def nwcOpenPhase : Nat → List NwcRelaySpec → Bool × List Nat × List RelayAction
  | _, [] => (true, [], [])
  | i, s :: rest =>
    if s.connectOk then
      if s.publishOk then
        let r := nwcOpenPhase (i + 1) rest
        (r.1, i :: r.2.1, .connectAct i :: .publishAct i :: r.2.2)
      else (false, [i], [.connectAct i])
    else (false, [], [])

/-- zapOverNWC.  `setupOk` is the success of the preamble (decrypt of the
stored NWC credential, decodeNWCUri, makeNwcRequestEvent, signEvent); a
preamble exception reaches the catch before any relay is opened and the call
returns false.  Otherwise the connection loop runs; when it completes,
Promise.race over the relay promises decides the returned boolean, and an
exception inside the loop is caught and the call returns false.  In both
cases the finally block closes every relay pushed onto `relays`. -/
def zapOverNWCRun (setupOk : Bool) (specs : List NwcRelaySpec) :
    Bool × List RelayAction :=
  if !setupOk then (false, [])
  else
    let r := nwcOpenPhase 0 specs
    let res :=
      if r.1 then (raceSettle (specs.map fun s => relayRun s.events)).1
      else false
    (res, r.2.2 ++ r.2.1.map RelayAction.closeAct)

/-! ### Race and cleanup lemmas -/

lemma raceSettle_cons (s : Bool × Nat) (l : List (Bool × Nat)) (h : l ≠ []) :
    raceSettle (s :: l) = if s.2 ≤ (raceSettle l).2 then s else raceSettle l := by
  cases l with
  | nil => exact absurd rfl h
  | cons t rest => rfl

lemma raceSettle_mem : ∀ l : List (Bool × Nat), l ≠ [] → raceSettle l ∈ l
  | [s], _ => by simp [raceSettle]
  | s :: t :: rest, _ => by
    have ih := raceSettle_mem (t :: rest) (by simp)
    rw [raceSettle_cons s (t :: rest) (by simp)]
    by_cases h : s.2 ≤ (raceSettle (t :: rest)).2
    · simp [h]
    · simp only [h, if_false]
      exact List.mem_cons_of_mem s ih

lemma raceSettle_strict_min : ∀ (pre : List (Bool × Nat)) (x : Bool × Nat)
    (post : List (Bool × Nat)),
    (∀ y ∈ pre, x.2 < y.2) → (∀ y ∈ post, x.2 < y.2) →
    raceSettle (pre ++ x :: post) = x
  | [], x, post, _, hpost => by
    cases post with
    | nil => rfl
    | cons t rest =>
      rw [List.nil_append, raceSettle_cons x (t :: rest) (by simp)]
      have hm := raceSettle_mem (t :: rest) (by simp)
      have := hpost _ hm
      simp [Nat.le_of_lt this]
  | p :: pre, x, post, hpre, hpost => by
    have ih := raceSettle_strict_min pre x post
      (fun y hy => hpre y (List.mem_cons_of_mem p hy)) hpost
    have hne : pre ++ x :: post ≠ [] := by simp
    rw [List.cons_append, raceSettle_cons p (pre ++ x :: post) hne, ih]
    have hp : x.2 < p.2 := hpre p (List.mem_cons_self p pre)
    have : ¬ p.2 ≤ x.2 := by omega
    simp [this]

lemma nwcOpenPhase_ok : ∀ (start : Nat) (specs : List NwcRelaySpec),
    (∀ s ∈ specs, s.connectOk = true ∧ s.publishOk = true) →
    (nwcOpenPhase start specs).1 = true
  | _, [], _ => rfl
  | start, s :: rest, h => by
    have hs := h s (List.mem_cons_self s rest)
    have ih := nwcOpenPhase_ok (start + 1) rest
      (fun r hr => h r (List.mem_cons_of_mem s hr))
    simp [nwcOpenPhase, hs.1, hs.2, ih]

lemma nwcOpenPhase_opened_ge : ∀ (start : Nat) (specs : List NwcRelaySpec),
    ∀ j ∈ (nwcOpenPhase start specs).2.1, start ≤ j
  | _, [], _, hj => by simp [nwcOpenPhase] at hj
  | start, s :: rest, j, hj => by
    cases hc : s.connectOk with
    | false => simp [nwcOpenPhase, hc] at hj
    | true =>
      cases hp : s.publishOk with
      | false =>
        simp only [nwcOpenPhase, hc, hp, Bool.false_eq_true, if_true, if_false,
          List.mem_singleton] at hj
        omega
      | true =>
        simp only [nwcOpenPhase, hc, hp, if_true, List.mem_cons] at hj
        rcases hj with rfl | hj
        · exact Nat.le_refl j
        · exact Nat.le_of_succ_le (nwcOpenPhase_opened_ge (start + 1) rest j hj)

lemma nwcOpenPhase_count_connect : ∀ (start : Nat) (specs : List NwcRelaySpec)
    (i : Nat),
    ((nwcOpenPhase start specs).2.2).count (RelayAction.connectAct i)
      = ((nwcOpenPhase start specs).2.1).count i
  | _, [], _ => rfl
  | start, s :: rest, i => by
    have ih := nwcOpenPhase_count_connect (start + 1) rest i
    by_cases hc : s.connectOk = true
    · by_cases hp : s.publishOk = true
      · simp only [nwcOpenPhase, hc, hp, if_true]
        simp [List.count_cons, ih]
      · simp [nwcOpenPhase, hc, hp, List.count_cons, List.count_singleton]
    · simp [nwcOpenPhase, hc]

lemma nwcOpenPhase_count_le_one : ∀ (start : Nat) (specs : List NwcRelaySpec)
    (i : Nat), ((nwcOpenPhase start specs).2.1).count i ≤ 1
  | _, [], _ => by simp [nwcOpenPhase]
  | start, s :: rest, i => by
    cases hc : s.connectOk with
    | false => simp [nwcOpenPhase, hc]
    | true =>
      cases hp : s.publishOk with
      | false =>
        simp only [nwcOpenPhase, hc, hp, Bool.false_eq_true, if_true, if_false]
        rw [List.count_singleton']
        split <;> omega
      | true =>
        simp only [nwcOpenPhase, hc, hp, if_true]
        rw [List.count_cons]
        by_cases hi : start = i
        · subst hi
          have hz : ((nwcOpenPhase (start + 1) rest).2.1).count start = 0 := by
            rw [List.count_eq_zero]
            intro hmem
            have := nwcOpenPhase_opened_ge (start + 1) rest start hmem
            omega
          simp [hz]
        · rw [if_neg (by simp [hi])]
          have := nwcOpenPhase_count_le_one (start + 1) rest i
          omega

lemma nwcOpenPhase_no_close : ∀ (start : Nat) (specs : List NwcRelaySpec)
    (i : Nat),
    ((nwcOpenPhase start specs).2.2).count (RelayAction.closeAct i) = 0
  | _, [], _ => rfl
  | start, s :: rest, i => by
    have ih := nwcOpenPhase_no_close (start + 1) rest i
    by_cases hc : s.connectOk = true
    · by_cases hp : s.publishOk = true
      · simp [nwcOpenPhase, hc, hp, List.count_cons, ih]
      · simp [nwcOpenPhase, hc, hp]
    · simp [nwcOpenPhase, hc]

lemma count_closeAct_map (opened : List Nat) (i : Nat) :
    (opened.map RelayAction.closeAct).count (RelayAction.closeAct i)
      = opened.count i := by
  induction opened with
  | nil => rfl
  | cons j rest ih =>
    simp only [List.map_cons, List.count_cons, ih]
    by_cases h : j = i <;> simp [h]

lemma count_connectAct_map_close (opened : List Nat) (i : Nat) :
    (opened.map RelayAction.closeAct).count (RelayAction.connectAct i) = 0 := by
  rw [List.count_eq_zero]
  intro hmem
  rcases List.mem_map.mp hmem with ⟨j, _, hj⟩
  exact absurd hj (by simp)

/-! ### Claims C4, C5 -/

/-- C4: in zapOverNWC the first relay promise to settle on a definitive
result (success or error) determines the overall outcome and the results of
slower relays are discarded; and a relay that receives no definitive
response before the 30-second timer resolves as a failure at 30000 ms. -/
theorem zapOverNWC_race_semantics :
    (∀ evs : List NwcEvent,
        (∀ e ∈ evs, nwcTimeoutMs ≤ e.time ∨ handleNwcEvent e.msg = none) →
        relayRun evs = (false, nwcTimeoutMs))
    ∧ ∀ (pre : List NwcRelaySpec) (s : NwcRelaySpec) (post : List NwcRelaySpec),
        (∀ r ∈ pre ++ s :: post, r.connectOk = true ∧ r.publishOk = true) →
        (∀ r ∈ pre, (relayRun s.events).2 < (relayRun r.events).2) →
        (∀ r ∈ post, (relayRun s.events).2 < (relayRun r.events).2) →
        (zapOverNWCRun true (pre ++ s :: post)).1 = (relayRun s.events).1 := by
  constructor
  · intro evs h
    induction evs with
    | nil => rfl
    | cons e rest ih =>
      by_cases ht : nwcTimeoutMs ≤ e.time
      · simp [relayRun, ht]
      · have hm : handleNwcEvent e.msg = none := by
          rcases h e (List.mem_cons_self e rest) with h1 | h2
          · exact absurd h1 ht
          · exact h2
        have := ih (fun e' he' => h e' (List.mem_cons_of_mem e he'))
        simp [relayRun, ht, hm, this]
  · intro pre s post hok hpre hpost
    have h1 : (nwcOpenPhase 0 (pre ++ s :: post)).1 = true :=
      nwcOpenPhase_ok 0 _ hok
    simp only [zapOverNWCRun, Bool.not_true, Bool.false_eq_true, if_false, h1,
      if_true]
    rw [List.map_append, List.map_cons]
    rw [raceSettle_strict_min (pre.map fun r => relayRun r.events)
      (relayRun s.events) (post.map fun r => relayRun r.events) ?_ ?_]
    · intro y hy
      rcases List.mem_map.mp hy with ⟨r, hr, rfl⟩
      exact hpre r hr
    · intro y hy
      rcases List.mem_map.mp hy with ⟨r, hr, rfl⟩
      exact hpost r hr

/-- Witness for C4 at concrete inputs: a relay seeing only a non-definitive
info event resolves failed at the 30-second mark, and with two relays where
the first settles successfully at 10 ms while the second would only time
out, the race returns the first relay's success. -/
theorem zapOverNWC_race_semantics_witness :
    relayRun [⟨5, NwcMsg.ok ⟨"get_info", false, none⟩⟩] = (false, nwcTimeoutMs)
    ∧ (zapOverNWCRun true
        [⟨true, true, [⟨10, NwcMsg.ok ⟨"pay_invoice", true, none⟩⟩]⟩,
          ⟨true, true, []⟩]).1 = true := by
  constructor
  · exact zapOverNWC_race_semantics.1 _ (by decide)
  · have h := zapOverNWC_race_semantics.2 []
      ⟨true, true, [⟨10, NwcMsg.ok ⟨"pay_invoice", true, none⟩⟩]⟩
      [⟨true, true, []⟩] (by decide) (by decide) (by decide)
    rw [List.nil_append] at h
    rw [h]
    rfl

/-- C5: every relay connection opened by a zapOverNWC invocation is closed
exactly once by the time the call returns, on every outcome — preamble
exception, connect or publish exception mid-loop, race success, race failure
or timeout — and a relay that was never opened is never closed. -/
theorem zapOverNWC_closes_each_opened_relay_once (setupOk : Bool)
    (specs : List NwcRelaySpec) (i : Nat) :
    ((zapOverNWCRun setupOk specs).2).count (RelayAction.closeAct i)
      = ((zapOverNWCRun setupOk specs).2).count (RelayAction.connectAct i)
    ∧ ((zapOverNWCRun setupOk specs).2).count (RelayAction.connectAct i) ≤ 1 := by
  cases setupOk with
  | false => simp [zapOverNWCRun]
  | true =>
    simp only [zapOverNWCRun, Bool.not_true, Bool.false_eq_true, if_false]
    rw [List.count_append, List.count_append]
    rw [nwcOpenPhase_no_close 0 specs i, count_closeAct_map,
      nwcOpenPhase_count_connect 0 specs i, count_connectAct_map_close]
    constructor
    · omega
    · have := nwcOpenPhase_count_le_one 0 specs i
      omega

/-! ## BreezService (src/lib/breez/breezService.ts and the revision appended
in zap.ts) -/

/-- BreezConfig as exported by breezService.ts. -/
structure BreezConfig where
  mnemonic : String
  apiKey : String
  network : String
  workingDir : String
deriving DecidableEq, Repr

/-- The mutable fields of the BreezService singleton, plus a ghost counter of
how many times initBreezSDK has been invoked.  `reconnectTimer = some d`
means a reconnection timer with delay d is pending; the presence of the SDK
handle coincides with `connected` on every reachable state. -/
structure BreezState where
  connected : Bool
  config : Option BreezConfig
  reconnectAttempts : Nat
  reconnectTimer : Option Nat
  balance : Nat
  initCount : Nat
deriving DecidableEq, Repr

/-- The externally visible effect of one handleReconnection call. -/
inductive ReconnAction
  | timerScheduled (delay : Nat)
  | terminalError
deriving DecidableEq, Repr

namespace BreezService

/-- private maxReconnectAttempts = 5. -/
def maxReconnectAttempts : Nat := 5

/-- private reconnectDelay = 3000 (milliseconds). -/
def reconnectDelay : Nat := 3000

/-- handleReconnection: when the attempt counter has reached the bound, emit
the terminal max-reconnection error and return without scheduling; otherwise
increment the counter and schedule a timer with delay
reconnectDelay * attempts (the incremented count). -/
def handleReconnection (st : BreezState) : BreezState × ReconnAction :=
  if maxReconnectAttempts ≤ st.reconnectAttempts then (st, .terminalError)
  else
    let n := st.reconnectAttempts + 1
    ({ st with reconnectAttempts := n, reconnectTimer := some (reconnectDelay * n) },
      .timerScheduled (reconnectDelay * n))

/-- refreshBalance: getBalance throws when disconnected, and refreshBalance
catches every error, leaving the cached balance unchanged; on success the
balance is the nodeInfo channelsBalanceMsat (or 0).  `nodeInfoRes = none`
models a nodeInfo rejection. -/
def refreshBalance (st : BreezState) (nodeInfoRes : Option Nat) : BreezState :=
  if !st.connected then st
  else
    match nodeInfoRes with
    | some b => { st with balance := b }
    | none => st

/-- connect(config): returns immediately when already connected; otherwise
stores the config and invokes initBreezSDK (counted by the ghost initCount).
`initOk = false` models the dynamic import or initBreezSDK throwing: the
error event is emitted, handleReconnection runs, and the call rethrows
(second component false).  On success the state becomes connected with the
attempt counter reset, and the initial refreshBalance runs. -/
def connect (st : BreezState) (cfg : BreezConfig) (initOk : Bool)
    (nodeInfoRes : Option Nat) : BreezState × Bool × Option ReconnAction :=
  if st.connected then (st, true, none)
  else
    let st1 := { st with config := some cfg, initCount := st.initCount + 1 }
    if initOk then
      let st2 := { st1 with connected := true, reconnectAttempts := 0 }
      (refreshBalance st2 nodeInfoRes, true, none)
    else
      let r := handleReconnection { st1 with connected := false }
      (r.1, false, some r.2)

/-- disconnect(): warns and returns when not connected; otherwise clears any
pending reconnection timer, releases the engine (whose own disconnect may
throw, modelled by `engineOk = false`, in which case the catch rethrows with
the timer already cleared), and resets the connection state. -/
def disconnect (st : BreezState) (engineOk : Bool) : BreezState × Bool :=
  if !st.connected then (st, true)
  else
    let st1 := { st with reconnectTimer := none }
    if engineOk then
      ({ st1 with connected := false, balance := 0, reconnectAttempts := 0 }, true)
    else (st1, false)

/-- A run of consecutive connection failures: the initial failing connect
followed by the pending timer repeatedly firing connect(this.config), which
fails again.  Collects the handleReconnection action of every round. -/
def failuresTrace : BreezState → BreezConfig → Nat → BreezState × List ReconnAction
  | st, _, 0 => (st, [])
  | st, cfg, k + 1 =>
    let r := connect st cfg false none
    let acts := match r.2.2 with | some a => [a] | none => []
    let rest := failuresTrace r.1 cfg k
    (rest.1, acts ++ rest.2)

end BreezService

/-! ### parseInput, payInvoice, createInvoice (zap.ts BreezService revision) -/

/-- The character class [0-9a-z] used by the parseInput regexes. -/
def isDigitOrLowerChar (c : Char) : Bool :=
  ('0' ≤ c && c ≤ '9') || ('a' ≤ c && c ≤ 'z')

/-- Whether an anchored regex of shape caret-p-class-plus-dollar matches s:
s starts with the literal p followed by one or more characters of the
class. -/
def anchoredMatch (p : List Char) (cls : Char → Bool) (s : List Char) : Bool :=
  s.take p.length == p && !(s.drop p.length).isEmpty && (s.drop p.length).all cls

/-- The BOLT11 test of parseInput on the lowercased trimmed input:
lnbc (mainnet), lntb (testnet) or lnbcrt (regtest) followed by one or more
characters of [0-9a-z]; the alternatives mirror the source regex. -/
def isBolt11Lower (lower : List Char) : Bool :=
  anchoredMatch "lnbc".toList isDigitOrLowerChar lower
  || anchoredMatch "lntb".toList isDigitOrLowerChar lower
  || anchoredMatch "lnbcrt".toList isDigitOrLowerChar lower

/-- The LNURL test of parseInput. -/
def isLnurlLower (lower : List Char) : Bool :=
  anchoredMatch "lnurl".toList isDigitOrLowerChar lower

/-- The bech32 on-chain address test of parseInput. -/
def isBechAddrLower (lower : List Char) : Bool :=
  anchoredMatch "bc1".toList isDigitOrLowerChar lower
  || anchoredMatch "tb1".toList isDigitOrLowerChar lower
  || anchoredMatch "bcrt1".toList isDigitOrLowerChar lower

/-- The base58 character class [1-9A-HJ-NP-Za-km-z]. -/
def isBase58Char (c : Char) : Bool :=
  ('1' ≤ c && c ≤ '9') || ('A' ≤ c && c ≤ 'H') || ('J' ≤ c && c ≤ 'N')
  || ('P' ≤ c && c ≤ 'Z') || ('a' ≤ c && c ≤ 'k') || ('m' ≤ c && c ≤ 'z')

/-- The base58 on-chain address test of parseInput, applied to the trimmed
raw input: first character 1, 3, m or n, then 20 to 59 base58 characters. -/
def isBase58Addr (raw : List Char) : Bool :=
  match raw with
  | [] => false
  | c :: rest =>
    (c == '1' || c == '3' || c == 'm' || c == 'n')
    && decide (20 ≤ rest.length) && decide (rest.length ≤ 59)
    && rest.all isBase58Char

/-- String.prototype.trim: strip leading and trailing whitespace. -/
def jsTrim (s : List Char) : List Char :=
  ((s.dropWhile Char.isWhitespace).reverse.dropWhile Char.isWhitespace).reverse

/-- The ParsedInput union returned by BreezService.parseInput. -/
inductive ParsedInput
  | bolt11 (invoice : String)
  | lnurl (lnurl : String)
  | onchain (address : String)
  | unknown (raw : String)
deriving DecidableEq, Repr

namespace BreezService

/-- parseInput: trims the input, lowercases it for the pattern tests, and
classifies it as bolt11, lnurl, onchain or unknown, returning the trimmed
raw text in each constructor. -/
def parseInput (input : String) : ParsedInput :=
  let raw := jsTrim input.toList
  let lower := raw.map Char.toLower
  if isBolt11Lower lower then .bolt11 (String.mk raw)
  else if isLnurlLower lower then .lnurl (String.mk raw)
  else if isBechAddrLower lower || isBase58Addr raw then .onchain (String.mk raw)
  else .unknown (String.mk raw)

/-- Whether parseInput classifies the input as a BOLT11 invoice — the
gate payInvoice applies before forwarding to the engine. -/
def isBolt11Input (input : String) : Bool :=
  match parseInput input with
  | .bolt11 _ => true
  | _ => false

/-- External outcomes consumed by one payInvoice call: the engine payment
result (`none` = the SDK call rejected) and the nodeInfo result used by the
subsequent refreshBalance. -/
structure PayEnv where
  engineRes : Option String
  nodeInfoRes : Option Nat
deriving DecidableEq, Repr

/-- Result of a payInvoice call: the state afterwards, the value returned or
error thrown, and two ghost observations: whether the engine payment call
was made and whether refreshBalance ran to completion. -/
structure PayOutcome where
  state : BreezState
  result : Except String String
  engineCalled : Bool
  balanceRefreshDone : Bool
deriving Repr

/-- payInvoice(invoice): requires a connected service, a non-empty string,
and an input parseInput classifies as bolt11, in that order, before the
engine payment call; after a completed payment it runs refreshBalance and
returns the engine result.  Every failure is rethrown as an error. -/
def payInvoice (st : BreezState) (invoice : String) (env : PayEnv) :
    PayOutcome :=
  if !st.connected then
    ⟨st, .error "Failed to pay invoice: BreezService is not connected", false, false⟩
  else if invoice == "" then
    ⟨st, .error "Failed to pay invoice: Invalid invoice", false, false⟩
  else if !(isBolt11Input invoice) then
    ⟨st, .error "Failed to pay invoice: Input is not a BOLT11 invoice", false, false⟩
  else
    match env.engineRes with
    | none => ⟨st, .error "Failed to pay invoice: Unknown error", true, false⟩
    | some res => ⟨refreshBalance st env.nodeInfoRes, .ok res, true, true⟩

/-- Math.round for the sats-to-msat conversion of createInvoice: rounds half
toward positive infinity. -/
def jsRound (x : ℚ) : Int := Int.floor (x + 1 / 2)

/-- Result of a createInvoice call: the value returned or error thrown,
whether the engine receivePayment call was made, and the amountMsat it was
given. -/
structure InvoiceOutcome where
  result : Except String String
  engineCalled : Bool
  amountMsatSent : Option Int
deriving Repr

/-- createInvoice(amountSats, description, expiry?): requires a connected
service, a positive finite amount and a truthy (non-empty) description, in
that order, before calling receivePayment with amountMsat =
Math.round(amountSats * 1000).  The amount is modelled as a rational, on
which the Number.isFinite guard is always satisfied; the expiry is passed
through unchanged and not modelled.  `engineRes = none` models a
receivePayment rejection, rethrown by the catch. -/
def createInvoice (st : BreezState) (amountSats : ℚ) (description : String)
    (engineRes : Option String) : InvoiceOutcome :=
  if !st.connected then
    ⟨.error "Failed to create invoice: BreezService is not connected", false, none⟩
  else if amountSats ≤ 0 then
    ⟨.error "Failed to create invoice: Amount must be a positive number of sats", false, none⟩
  else if description == "" then
    ⟨.error "Failed to create invoice: Description is required", false, none⟩
  else
    match engineRes with
    | none =>
      ⟨.error "Failed to create invoice: Unknown error", true,
        some (jsRound (amountSats * 1000))⟩
    | some inv => ⟨.ok inv, true, some (jsRound (amountSats * 1000))⟩

end BreezService

/-! ### Reconnection lemmas -/

lemma failuresTrace_add : ∀ (m n : Nat) (st : BreezState) (cfg : BreezConfig),
    (BreezService.failuresTrace st cfg (m + n)).2
      = (BreezService.failuresTrace st cfg m).2
        ++ (BreezService.failuresTrace
              (BreezService.failuresTrace st cfg m).1 cfg n).2
    ∧ (BreezService.failuresTrace st cfg (m + n)).1
      = (BreezService.failuresTrace
          (BreezService.failuresTrace st cfg m).1 cfg n).1
  | 0, n, st, cfg => by simp [BreezService.failuresTrace]
  | m + 1, n, st, cfg => by
    have h : m + 1 + n = (m + n) + 1 := by omega
    rw [h]
    have ih := failuresTrace_add m n (BreezService.connect st cfg false none).1 cfg
    simp only [BreezService.failuresTrace]
    rw [ih.1, ih.2]
    simp [List.append_assoc]

lemma failuresTrace_timers : ∀ (m : Nat) (st : BreezState) (cfg : BreezConfig),
    st.connected = false →
    st.reconnectAttempts + m ≤ BreezService.maxReconnectAttempts →
    (BreezService.failuresTrace st cfg m).2
      = (List.range m).map (fun n =>
          ReconnAction.timerScheduled
            (BreezService.reconnectDelay * (st.reconnectAttempts + n + 1)))
    ∧ (BreezService.failuresTrace st cfg m).1.connected = false
    ∧ (BreezService.failuresTrace st cfg m).1.reconnectAttempts
        = st.reconnectAttempts + m
  | 0, st, cfg, hconn, _ => by simp [BreezService.failuresTrace, hconn]
  | m + 1, st, cfg, hconn, hle => by
    have hlt : st.reconnectAttempts < BreezService.maxReconnectAttempts := by omega
    have hstep : BreezService.connect st cfg false none
        = (⟨false, some cfg, st.reconnectAttempts + 1,
            some (BreezService.reconnectDelay * (st.reconnectAttempts + 1)),
            st.balance, st.initCount + 1⟩,
           false,
           some (ReconnAction.timerScheduled
             (BreezService.reconnectDelay * (st.reconnectAttempts + 1)))) := by
      simp [BreezService.connect, BreezService.handleReconnection, hconn,
        Nat.not_le.mpr hlt]
    have ih := failuresTrace_timers m
      ⟨false, some cfg, st.reconnectAttempts + 1,
        some (BreezService.reconnectDelay * (st.reconnectAttempts + 1)),
        st.balance, st.initCount + 1⟩ cfg rfl (by simp; omega)
    refine ⟨?_, ?_, ?_⟩
    · simp only [BreezService.failuresTrace, hstep]
      rw [ih.1, List.range_succ_eq_map, List.map_cons, List.map_map,
        List.singleton_append]
      congr 1
      apply List.map_congr_left
      intro a _
      show ReconnAction.timerScheduled
          (BreezService.reconnectDelay * (st.reconnectAttempts + 1 + a + 1))
        = ReconnAction.timerScheduled
          (BreezService.reconnectDelay * (st.reconnectAttempts + (a + 1) + 1))
      congr 2
      omega
    · simp only [BreezService.failuresTrace, hstep]
      exact ih.2.1
    · simp only [BreezService.failuresTrace, hstep]
      rw [ih.2.2]
      show st.reconnectAttempts + 1 + m = st.reconnectAttempts + (m + 1)
      omega

lemma failuresTrace_terminal : ∀ (k : Nat) (st : BreezState) (cfg : BreezConfig),
    st.connected = false →
    BreezService.maxReconnectAttempts ≤ st.reconnectAttempts →
    (BreezService.failuresTrace st cfg k).2
      = List.replicate k ReconnAction.terminalError
  | 0, _, _, _, _ => rfl
  | k + 1, st, cfg, hconn, hmax => by
    have hstep : BreezService.connect st cfg false none
        = (⟨false, some cfg, st.reconnectAttempts, st.reconnectTimer,
            st.balance, st.initCount + 1⟩,
           false, some ReconnAction.terminalError) := by
      simp [BreezService.connect, BreezService.handleReconnection, hconn, hmax]
    have ih := failuresTrace_terminal k
      ⟨false, some cfg, st.reconnectAttempts, st.reconnectTimer,
        st.balance, st.initCount + 1⟩ cfg rfl (by simpa using hmax)
    simp only [BreezService.failuresTrace, hstep, ih]
    rfl

/-! ### Claims C6, C7, C9, C10 -/

/-- C6: connect is idempotent — when the service is already connected it
returns immediately with no state change and no engine call — so a second
connect after a successful one is a no-op and initBreezSDK has run exactly
once across the two calls, whatever the second call's arguments. -/
theorem breez_connect_idempotent (st : BreezState) (cfg cfg2 : BreezConfig)
    (nres nres2 : Option Nat) (initOk2 : Bool) (hconn : st.connected = false) :
    (∀ (st2 : BreezState) (cfg0 : BreezConfig) (initOk : Bool) (nres0 : Option Nat),
        st2.connected = true →
        BreezService.connect st2 cfg0 initOk nres0 = (st2, true, none))
    ∧ BreezService.connect
        (BreezService.connect st cfg true nres).1 cfg2 initOk2 nres2
        = ((BreezService.connect st cfg true nres).1, true, none)
    ∧ ((BreezService.connect
          (BreezService.connect st cfg true nres).1 cfg2 initOk2 nres2).1).initCount
        = st.initCount + 1 := by
  have hearly : ∀ (st2 : BreezState) (cfg0 : BreezConfig) (initOk : Bool)
      (nres0 : Option Nat), st2.connected = true →
      BreezService.connect st2 cfg0 initOk nres0 = (st2, true, none) := by
    intro st2 cfg0 initOk nres0 h
    simp [BreezService.connect, h]
  have hc1 : (BreezService.connect st cfg true nres).1.connected = true := by
    simp only [BreezService.connect, hconn, Bool.false_eq_true, if_false, if_true,
      BreezService.refreshBalance]
    cases nres <;> simp
  have hic : (BreezService.connect st cfg true nres).1.initCount
      = st.initCount + 1 := by
    simp only [BreezService.connect, hconn, Bool.false_eq_true, if_false, if_true,
      BreezService.refreshBalance]
    cases nres <;> simp
  exact ⟨hearly, by rw [hearly _ cfg2 initOk2 nres2 hc1],
    by rw [hearly _ cfg2 initOk2 nres2 hc1, hic]⟩

/-- Witness for C6 at a concrete input: from the fresh state a successful
connect followed by a second connect leaves the second call a no-op and the
engine initialized exactly once. -/
theorem breez_connect_idempotent_witness :
    BreezService.connect
        (BreezService.connect ⟨false, none, 0, none, 0, 0⟩
          ⟨"abandon", "key", "mainnet", "breez-data"⟩ true (some 7)).1
        ⟨"abandon", "key", "mainnet", "breez-data"⟩ false none
      = ((BreezService.connect ⟨false, none, 0, none, 0, 0⟩
            ⟨"abandon", "key", "mainnet", "breez-data"⟩ true (some 7)).1, true, none)
    ∧ ((BreezService.connect
          (BreezService.connect ⟨false, none, 0, none, 0, 0⟩
            ⟨"abandon", "key", "mainnet", "breez-data"⟩ true (some 7)).1
          ⟨"abandon", "key", "mainnet", "breez-data"⟩ false none).1).initCount = 1 := by
  have h := breez_connect_idempotent ⟨false, none, 0, none, 0, 0⟩
    ⟨"abandon", "key", "mainnet", "breez-data"⟩
    ⟨"abandon", "key", "mainnet", "breez-data"⟩ (some 7) none false rfl
  exact ⟨h.2.1, by rw [h.2.2]⟩

/-- C7: after a connect failure below the bound, handleReconnection schedules
a reconnection timer with delay reconnectDelay times the (incremented)
attempt count; at the bound it emits the terminal error and schedules
nothing; and a run of maxReconnectAttempts + 1 + k consecutive connection
failures from a fresh disconnected state — the initial failure plus the
failing automatic reconnection attempts — produces exactly
maxReconnectAttempts scheduled timers with linearly increasing delays and
after that only terminal errors, never another timer. -/
theorem breez_reconnection_policy (st : BreezState) (cfg : BreezConfig)
    (k : Nat) (hconn : st.connected = false) (hatt : st.reconnectAttempts = 0) :
    (∀ st2 : BreezState,
        st2.reconnectAttempts < BreezService.maxReconnectAttempts →
        (BreezService.handleReconnection st2).2
          = ReconnAction.timerScheduled
              (BreezService.reconnectDelay * (st2.reconnectAttempts + 1))
        ∧ (BreezService.handleReconnection st2).1.reconnectTimer
          = some (BreezService.reconnectDelay * (st2.reconnectAttempts + 1)))
    ∧ (∀ st2 : BreezState,
        BreezService.maxReconnectAttempts ≤ st2.reconnectAttempts →
        BreezService.handleReconnection st2 = (st2, ReconnAction.terminalError))
    ∧ (BreezService.failuresTrace st cfg
          (BreezService.maxReconnectAttempts + 1 + k)).2
        = (List.range BreezService.maxReconnectAttempts).map
            (fun n => ReconnAction.timerScheduled
              (BreezService.reconnectDelay * (n + 1)))
          ++ List.replicate (k + 1) ReconnAction.terminalError := by
  refine ⟨?_, ?_, ?_⟩
  · intro st2 h
    simp [BreezService.handleReconnection, Nat.not_le.mpr h]
  · intro st2 h
    simp [BreezService.handleReconnection, h]
  · have harith : BreezService.maxReconnectAttempts + 1 + k
        = BreezService.maxReconnectAttempts + (k + 1) := by omega
    rw [harith,
      (failuresTrace_add BreezService.maxReconnectAttempts (k + 1) st cfg).1]
    have htimers := failuresTrace_timers BreezService.maxReconnectAttempts st cfg
      hconn (by omega)
    have hterm := failuresTrace_terminal (k + 1)
      (BreezService.failuresTrace st cfg BreezService.maxReconnectAttempts).1 cfg
      htimers.2.1 (by rw [htimers.2.2]; omega)
    rw [htimers.1, hterm, hatt]
    simp

/-- C9: payInvoice forwards an input to the engine only when parseInput
classifies it as a BOLT11 invoice: on any input parseInput classifies
otherwise (on-chain address, LNURL, unknown) the call throws and the engine
payment call is never made; and on a completed engine payment it runs
refreshBalance before returning the engine result. -/
theorem payInvoice_validates_and_refreshes (st : BreezState) (invoice : String)
    (env : BreezService.PayEnv) (res : String) :
    (BreezService.isBolt11Input invoice = false →
      (BreezService.payInvoice st invoice env).engineCalled = false
      ∧ ∃ e, (BreezService.payInvoice st invoice env).result = Except.error e)
    ∧ (st.connected = true → BreezService.isBolt11Input invoice = true →
        env.engineRes = some res →
        (BreezService.payInvoice st invoice env).balanceRefreshDone = true
        ∧ (BreezService.payInvoice st invoice env).engineCalled = true
        ∧ (BreezService.payInvoice st invoice env).result = Except.ok res) := by
  constructor
  · intro hb
    cases hc : st.connected with
    | false => simp [BreezService.payInvoice, hc]
    | true =>
      cases hemp : invoice == "" with
      | true => simp [BreezService.payInvoice, hc, hemp]
      | false => simp [BreezService.payInvoice, hc, hemp, hb]
  · intro hc hb henv
    have hne : (invoice == "") = false := by
      cases h0 : invoice == "" with
      | false => rfl
      | true =>
        exfalso
        have hinv : invoice = "" := by simpa using h0
        rw [hinv] at hb
        have : BreezService.isBolt11Input "" = false := by decide
        rw [this] at hb
        exact Bool.false_ne_true hb
    simp [BreezService.payInvoice, hc, hne, hb, henv]

/-- Witness for C9 at concrete inputs: a bech32 on-chain address is rejected
with no engine call, and a BOLT11 invoice is paid with the balance
refreshed. -/
theorem payInvoice_validates_and_refreshes_witness :
    (BreezService.payInvoice ⟨true, none, 0, none, 0, 0⟩
        "bc1qw508d6qejxtdg4y5r3zarvary0c5xw7kv8f3t4"
        ⟨some "paid", some 42⟩).engineCalled = false
    ∧ (BreezService.payInvoice ⟨true, none, 0, none, 0, 0⟩
        "lnbc2500u1pvjluez" ⟨some "paid", some 42⟩).balanceRefreshDone = true := by
  constructor
  · exact ((payInvoice_validates_and_refreshes ⟨true, none, 0, none, 0, 0⟩
      "bc1qw508d6qejxtdg4y5r3zarvary0c5xw7kv8f3t4"
      ⟨some "paid", some 42⟩ "paid").1 (by decide)).1
  · exact ((payInvoice_validates_and_refreshes ⟨true, none, 0, none, 0, 0⟩
      "lnbc2500u1pvjluez" ⟨some "paid", some 42⟩ "paid").2 rfl (by decide) rfl).1

/-- C10: createInvoice throws and never calls the engine when the description
is empty, even on a connected service with a positive amount — a
precondition beyond the amount constraint. -/
theorem createInvoice_empty_description_throws (st : BreezState)
    (amountSats : ℚ) (engineRes : Option String)
    (hconn : st.connected = true) (hpos : 0 < amountSats) :
    (BreezService.createInvoice st amountSats "" engineRes).engineCalled = false
    ∧ ∃ e, (BreezService.createInvoice st amountSats "" engineRes).result
        = Except.error e := by
  have hneg : ¬ amountSats ≤ 0 := not_le.mpr hpos
  simp [BreezService.createInvoice, hconn, hneg]

/-- Witness for C10 at a concrete input: connected service, 21 sats, empty
description — the engine receivePayment call is never made. -/
theorem createInvoice_empty_description_throws_witness :
    (BreezService.createInvoice ⟨true, none, 0, none, 0, 0⟩ 21 ""
      (some "lnbcinvoice")).engineCalled = false := by
  exact (createInvoice_empty_description_throws ⟨true, none, 0, none, 0, 0⟩ 21
    (some "lnbcinvoice") rfl (by norm_num)).1

/-- Witness for C7 at a concrete input: six consecutive failures from the
fresh state schedule timers at 3000, 6000, 9000, 12000 and 15000 ms and then
emit the terminal error without scheduling. -/
theorem breez_reconnection_policy_witness :
    (BreezService.failuresTrace ⟨false, none, 0, none, 0, 0⟩
        ⟨"abandon", "key", "mainnet", "breez-data"⟩ 6).2
      = [ReconnAction.timerScheduled 3000, ReconnAction.timerScheduled 6000,
         ReconnAction.timerScheduled 9000, ReconnAction.timerScheduled 12000,
         ReconnAction.timerScheduled 15000, ReconnAction.terminalError] := by
  have h := (breez_reconnection_policy ⟨false, none, 0, none, 0, 0⟩
    ⟨"abandon", "key", "mainnet", "breez-data"⟩ 0 rfl rfl).2.2
  rw [show BreezService.maxReconnectAttempts + 1 + 0 = 6 from rfl] at h
  rw [h]
  decide

/-! ## Mnemonic encryption (the encryption helper revision: encryptMnemonic /
decryptMnemonic, XChaCha20-Poly1305 with PBKDF2 key derivation)

Byte strings are modelled as lists of naturals below 256; the mnemonic is
its UTF-8 byte sequence (TextEncoder/TextDecoder).  The noble-ciphers
primitives are taken as parameters: a keystream derivation and a Poly1305
tag derivation for the cipher, and the PBKDF2-HMAC-SHA256 function; the
round trip depends only on the stream-cipher shape xor-then-tag that
xchacha20poly1305 has, not on the primitives' internals. -/

/-- The standard base64 alphabet used by Buffer.from(..).toString(base64). -/
def b64Alphabet : List Char :=
  "ABCDEFGHIJKLMNOPQRSTUVWXYZabcdefghijklmnopqrstuvwxyz0123456789+/".toList

/-- The alphabet character of a sextet. -/
def b64Char (n : Nat) : Char := b64Alphabet.getD n '?'

def b64ValAux : List Char → Nat → Char → Option Nat
  | [], _, _ => none
  | a :: rest, i, c => if a = c then some i else b64ValAux rest (i + 1) c

/-- The sextet of an alphabet character. -/
def b64Val (c : Char) : Option Nat := b64ValAux b64Alphabet 0 c

/-- Base64 encoding with padding: three bytes become four alphabet
characters; a final group of one or two bytes is padded with =. -/
def base64Encode : List Nat → List Char
  | [] => []
  | [b0] => [b64Char (b0 / 4), b64Char (b0 % 4 * 16), '=', '=']
  | [b0, b1] =>
    [b64Char (b0 / 4), b64Char (b0 % 4 * 16 + b1 / 16), b64Char (b1 % 16 * 4), '=']
  | b0 :: b1 :: b2 :: rest =>
    b64Char (b0 / 4) :: b64Char (b0 % 4 * 16 + b1 / 16)
      :: b64Char (b1 % 16 * 4 + b2 / 64) :: b64Char (b2 % 64) :: base64Encode rest

/-- Base64 decoding of well-formed padded input (Buffer.from with base64 is
lenient on malformed input, but only well-formed strings produced by
base64Encode are ever decoded on the round trip). -/
def base64Decode : List Char → Option (List Nat)
  | [] => some []
  | c0 :: c1 :: c2 :: c3 :: rest =>
    match b64Val c0, b64Val c1 with
    | some s0, some s1 =>
      if c2 = '=' then
        if c3 = '=' ∧ rest = [] then some [s0 * 4 + s1 / 16] else none
      else
        match b64Val c2 with
        | some s2 =>
          if c3 = '=' then
            if rest = [] then some [s0 * 4 + s1 / 16, s1 % 16 * 16 + s2 / 4]
            else none
          else
            match b64Val c3 with
            | some s3 =>
              match base64Decode rest with
              | some bs =>
                some ((s0 * 4 + s1 / 16) :: (s1 % 16 * 16 + s2 / 4)
                  :: (s2 % 4 * 64 + s3) :: bs)
              | none => none
            | none => none
        | none => none
    | _, _ => none
  | _ => none

/-- Bytewise xor of two byte strings (the stream-cipher combination). -/
def zipXor (a b : List Nat) : List Nat := List.zipWith (fun x y => x ^^^ y) a b

/-- The UTF-8 bytes of the whitespace characters String.prototype.trim
strips (the ASCII ones; a mnemonic is ASCII). -/
def isWsByte (b : Nat) : Bool :=
  (b == 9) || (b == 10) || (b == 11) || (b == 12) || (b == 13) || (b == 32)

/-- xchacha20poly1305(key, nonce).encrypt(plaintext) of noble-ciphers: the
plaintext xored with the cipher keystream, with the 16-byte Poly1305 tag of
the ciphertext body appended. -/
def aeadEncrypt (keystream : List Nat → List Nat → Nat → List Nat)
    (tagOf : List Nat → List Nat → List Nat → List Nat)
    (key nonce plaintext : List Nat) : List Nat :=
  let body := zipXor plaintext (keystream key nonce plaintext.length)
  body ++ tagOf key nonce body

/-- xchacha20poly1305(key, nonce).decrypt(ct): split off the trailing
16-byte tag, recompute it over the body and reject on mismatch (none models
the library throwing), otherwise xor the keystream back off. -/
def aeadDecrypt (keystream : List Nat → List Nat → Nat → List Nat)
    (tagOf : List Nat → List Nat → List Nat → List Nat)
    (key nonce ct : List Nat) : Option (List Nat) :=
  if ct.length < 16 then none
  else
    let body := ct.take (ct.length - 16)
    let tg := ct.drop (ct.length - 16)
    if tagOf key nonce body = tg then
      some (zipXor body (keystream key nonce body.length))
    else none

/-- deriveKey from the encryption helper: rejects an empty password, an
empty salt and a non-positive iteration count, then applies
PBKDF2-HMAC-SHA256 (the kdf parameter). -/
def deriveKey (kdf : List Nat → List Nat → Nat → List Nat)
    (password salt : List Nat) (iterations : Nat) : Except String (List Nat) :=
  if password.isEmpty then .error "Password cannot be empty"
  else if salt.isEmpty then .error "Salt cannot be empty"
  else if iterations < 1 then .error "Iterations must be greater than 0"
  else .ok (kdf password salt iterations)

/-- The EncryptedData record: base64-encoded ciphertext, nonce and salt. -/
structure EncryptedData where
  ciphertext : List Char
  nonce : List Char
  salt : List Char
deriving DecidableEq, Repr

/-- encryptMnemonic: rejects an empty or all-whitespace mnemonic and an
empty password, derives the key from the password and the fresh 16-byte
salt, encrypts under the fresh 24-byte nonce and returns the base64-encoded
record.  The randomBytes results (salt and nonce) are passed in. -/
def encryptMnemonic (keystream : List Nat → List Nat → Nat → List Nat)
    (tagOf : List Nat → List Nat → List Nat → List Nat)
    (kdf : List Nat → List Nat → Nat → List Nat)
    (mnemonic password salt nonce : List Nat) (iterations : Nat) :
    Except String EncryptedData :=
  if mnemonic.all isWsByte then .error "Mnemonic cannot be empty"
  else if password.isEmpty then .error "Password cannot be empty"
  else
    match deriveKey kdf password salt iterations with
    | .error e => .error ("Encryption failed: " ++ e)
    | .ok key =>
      let ct := aeadEncrypt keystream tagOf key nonce mnemonic
      .ok ⟨base64Encode ct, base64Encode nonce, base64Encode salt⟩

/-- decryptMnemonic: rejects a record with a missing (empty) field and an
empty password, base64-decodes the components, enforces the 24-byte nonce
length, re-derives the key and decrypts; an authentication failure is
reported as the generic incorrect-password-or-corrupted-data error. -/
def decryptMnemonic (keystream : List Nat → List Nat → Nat → List Nat)
    (tagOf : List Nat → List Nat → List Nat → List Nat)
    (kdf : List Nat → List Nat → Nat → List Nat)
    (ed : EncryptedData) (password : List Nat) (iterations : Nat) :
    Except String (List Nat) :=
  if ed.ciphertext.isEmpty || ed.nonce.isEmpty || ed.salt.isEmpty then
    .error "Invalid encrypted data: missing required fields"
  else if password.isEmpty then .error "Password cannot be empty"
  else
    match base64Decode ed.ciphertext, base64Decode ed.nonce, base64Decode ed.salt with
    | some ct, some nonce, some salt =>
      if nonce.length ≠ 24 then
        .error "Invalid nonce length: expected 24 bytes for XChaCha20"
      else
        match deriveKey kdf password salt iterations with
        | .error e => .error ("Decryption failed: " ++ e)
        | .ok key =>
          match aeadDecrypt keystream tagOf key nonce ct with
          | some pt => .ok pt
          | none => .error "Decryption failed: incorrect password or corrupted data"
    | _, _, _ => .error "Decryption failed: invalid base64 data"

/-! ### Base64 and cipher lemmas -/

lemma b64Val_b64Char : ∀ s : Nat, s < 64 → b64Val (b64Char s) = some s ∧ b64Char s ≠ '=' := by decide

lemma base64Encode_ne_nil : ∀ l : List Nat, l ≠ [] → base64Encode l ≠ []
  | [], h => absurd rfl h
  | [_], _ => by simp [base64Encode]
  | [_, _], _ => by simp [base64Encode]
  | _ :: _ :: _ :: _, _ => by simp [base64Encode]

lemma base64_roundTrip : ∀ l : List Nat, (∀ b ∈ l, b < 256) →
    base64Decode (base64Encode l) = some l
  | [], _ => rfl
  | [b0], h => by
    have hb0 : b0 < 256 := h b0 (by simp)
    have h0 := b64Val_b64Char (b0 / 4) (by omega)
    have h1 := b64Val_b64Char (b0 % 4 * 16) (by omega)
    simp only [base64Encode, base64Decode, h0.1, h1.1, eq_self_iff_true,
      and_self, if_true, Option.some.injEq, List.cons.injEq, and_true]
    omega
  | [b0, b1], h => by
    have hb0 : b0 < 256 := h b0 (by simp)
    have hb1 : b1 < 256 := h b1 (by simp)
    have h0 := b64Val_b64Char (b0 / 4) (by omega)
    have h1 := b64Val_b64Char (b0 % 4 * 16 + b1 / 16) (by omega)
    have h2 := b64Val_b64Char (b1 % 16 * 4) (by omega)
    simp only [base64Encode, base64Decode, h0.1, h1.1, if_neg h2.2, h2.1,
      eq_self_iff_true, if_true, Option.some.injEq, List.cons.injEq, and_true]
    omega
  | b0 :: b1 :: b2 :: rest, h => by
    have hb0 : b0 < 256 := h b0 (by simp)
    have hb1 : b1 < 256 := h b1 (by simp)
    have hb2 : b2 < 256 := h b2 (by simp)
    have h0 := b64Val_b64Char (b0 / 4) (by omega)
    have h1 := b64Val_b64Char (b0 % 4 * 16 + b1 / 16) (by omega)
    have h2 := b64Val_b64Char (b1 % 16 * 4 + b2 / 64) (by omega)
    have h3 := b64Val_b64Char (b2 % 64) (by omega)
    have ih : base64Decode (base64Encode rest) = some rest :=
      base64_roundTrip rest (fun b hb => h b (by simp [hb]))
    simp only [base64Encode, base64Decode, h0.1, h1.1, if_neg h2.2, h2.1,
      if_neg h3.2, h3.1, ih, Option.some.injEq, List.cons.injEq, and_true]
    omega

lemma zipXor_cancel : ∀ (m ks : List Nat), m.length ≤ ks.length →
    zipXor (zipXor m ks) ks = m
  | [], _, _ => rfl
  | _ :: _, [], h => by simp at h
  | x :: m, y :: ks, h => by
    have ih := zipXor_cancel m ks (by simpa using h)
    simp only [zipXor, List.zipWith_cons_cons] at ih ⊢
    rw [ih, Nat.xor_assoc, Nat.xor_self, Nat.xor_zero]

lemma zipXor_length (a b : List Nat) :
    (zipXor a b).length = min a.length b.length := by
  simp [zipXor]

lemma zipXor_bound : ∀ (a b : List Nat), (∀ x ∈ a, x < 256) →
    (∀ x ∈ b, x < 256) → ∀ x ∈ zipXor a b, x < 256
  | [], _, _, _, x, hx => by simp [zipXor] at hx
  | _ :: _, [], _, _, x, hx => by simp [zipXor] at hx
  | a :: as, b :: bs, ha, hb, x, hx => by
    simp only [zipXor, List.zipWith_cons_cons, List.mem_cons] at hx
    rcases hx with rfl | hx
    · have h256 : (256 : Nat) = 2 ^ 8 := by norm_num
      rw [h256]
      exact Nat.xor_lt_two_pow (by simpa [h256] using ha a (by simp))
        (by simpa [h256] using hb b (by simp))
    · exact zipXor_bound as bs (fun y hy => ha y (by simp [hy]))
        (fun y hy => hb y (by simp [hy])) x hx

lemma isEmpty_false_of_ne_nil {α : Type} {l : List α} (h : l ≠ []) :
    l.isEmpty = false := by
  cases l with
  | nil => exact absurd rfl h
  | cons a t => rfl

lemma aead_roundTrip (keystream : List Nat → List Nat → Nat → List Nat)
    (tagOf : List Nat → List Nat → List Nat → List Nat)
    (key nonce m : List Nat)
    (hksLen : ∀ k n l, (keystream k n l).length = l)
    (htagLen : ∀ k n c, (tagOf k n c).length = 16) :
    aeadDecrypt keystream tagOf key nonce
      (aeadEncrypt keystream tagOf key nonce m) = some m := by
  have hks : (keystream key nonce m.length).length = m.length :=
    hksLen key nonce m.length
  have hbodyLen : (zipXor m (keystream key nonce m.length)).length = m.length := by
    rw [zipXor_length, hks, Nat.min_self]
  have hclen : (zipXor m (keystream key nonce m.length)
      ++ tagOf key nonce (zipXor m (keystream key nonce m.length))).length
      = m.length + 16 := by
    rw [List.length_append, hbodyLen, htagLen]
  simp only [aeadEncrypt, aeadDecrypt]
  rw [if_neg (by rw [hclen]; omega)]
  rw [hclen, Nat.add_sub_cancel, List.take_left' hbodyLen,
    List.drop_left' hbodyLen, if_pos rfl, hbodyLen]
  exact congrArg some (zipXor_cancel m _ (le_of_eq hks.symm))

/-! ### Claim C8 -/

/-- C8: for every (mnemonic, password) pair accepted by encryptMnemonic — a
mnemonic that is not empty or all whitespace and a non-empty password —
and every run of the 16-byte-salt and 24-byte-nonce randomness,
decryptMnemonic of the encrypted record under the same password returns the
original mnemonic.  The cipher keystream, Poly1305 tag and PBKDF2 primitives
are arbitrary subject to the length and byte-range laws the noble-ciphers
implementations satisfy. -/
theorem encryptMnemonic_decryptMnemonic_roundTrip
    (keystream : List Nat → List Nat → Nat → List Nat)
    (tagOf : List Nat → List Nat → List Nat → List Nat)
    (kdf : List Nat → List Nat → Nat → List Nat)
    (mnemonic password salt nonce : List Nat) (iterations : Nat)
    (hksLen : ∀ k n l, (keystream k n l).length = l)
    (hksB : ∀ k n l, ∀ b ∈ keystream k n l, b < 256)
    (htagLen : ∀ k n c, (tagOf k n c).length = 16)
    (htagB : ∀ k n c, ∀ b ∈ tagOf k n c, b < 256)
    (hm : mnemonic.all isWsByte = false)
    (hmB : ∀ b ∈ mnemonic, b < 256)
    (hp : password ≠ [])
    (hsalt : salt.length = 16) (hsaltB : ∀ b ∈ salt, b < 256)
    (hnonce : nonce.length = 24) (hnonceB : ∀ b ∈ nonce, b < 256)
    (hit : 1 ≤ iterations) :
    ∃ ed,
      encryptMnemonic keystream tagOf kdf mnemonic password salt nonce iterations
        = Except.ok ed
      ∧ decryptMnemonic keystream tagOf kdf ed password iterations
        = Except.ok mnemonic := by
  have hpE : password.isEmpty = false := isEmpty_false_of_ne_nil hp
  have hsne : salt ≠ [] := by
    intro h
    rw [h] at hsalt
    simp at hsalt
  have hnne : nonce ≠ [] := by
    intro h
    rw [h] at hnonce
    simp at hnonce
  have hsE : salt.isEmpty = false := isEmpty_false_of_ne_nil hsne
  have hdk : deriveKey kdf password salt iterations
      = Except.ok (kdf password salt iterations) := by
    simp only [deriveKey, hpE, hsE, Bool.false_eq_true, if_false]
    rw [if_neg (by omega)]
  have hctB : ∀ b ∈ aeadEncrypt keystream tagOf (kdf password salt iterations)
      nonce mnemonic, b < 256 := by
    intro b hb
    simp only [aeadEncrypt, List.mem_append] at hb
    rcases hb with hb | hb
    · exact zipXor_bound _ _ hmB (hksB _ _ _) b hb
    · exact htagB _ _ _ b hb
  have hctne : aeadEncrypt keystream tagOf (kdf password salt iterations)
      nonce mnemonic ≠ [] := by
    intro h
    have h16 := htagLen (kdf password salt iterations) nonce
      (zipXor mnemonic (keystream (kdf password salt iterations) nonce mnemonic.length))
    have : (aeadEncrypt keystream tagOf (kdf password salt iterations)
        nonce mnemonic).length = 0 := by rw [h]; rfl
    rw [aeadEncrypt, List.length_append, h16] at this
    omega
  have hdec1 : base64Decode (base64Encode (aeadEncrypt keystream tagOf
      (kdf password salt iterations) nonce mnemonic))
      = some (aeadEncrypt keystream tagOf (kdf password salt iterations)
          nonce mnemonic) :=
    base64_roundTrip _ hctB
  have hdec2 : base64Decode (base64Encode nonce) = some nonce :=
    base64_roundTrip _ hnonceB
  have hdec3 : base64Decode (base64Encode salt) = some salt :=
    base64_roundTrip _ hsaltB
  refine ⟨⟨base64Encode (aeadEncrypt keystream tagOf
      (kdf password salt iterations) nonce mnemonic),
      base64Encode nonce, base64Encode salt⟩, ?_, ?_⟩
  · simp only [encryptMnemonic, hm, Bool.false_eq_true, if_false, hpE, hdk]
  · simp only [decryptMnemonic,
      isEmpty_false_of_ne_nil (base64Encode_ne_nil _ hctne),
      isEmpty_false_of_ne_nil (base64Encode_ne_nil _ hnne),
      isEmpty_false_of_ne_nil (base64Encode_ne_nil _ hsne),
      Bool.or_self, Bool.false_or, Bool.false_eq_true, if_false, hpE,
      hdec1, hdec2, hdec3]
    rw [if_neg (by simp [hnonce])]
    rw [hdk]
    simp [aead_roundTrip keystream tagOf (kdf password salt iterations) nonce
      mnemonic hksLen htagLen]

/-- Witness for C8 at a concrete input: a five-byte mnemonic and one-byte
password under concrete stand-ins for the cipher primitives round-trip
through the encrypted record. -/
theorem encryptMnemonic_decryptMnemonic_roundTrip_witness :
    ∃ ed,
      encryptMnemonic (fun _ _ l => List.replicate l 170)
          (fun _ _ _ => List.replicate 16 1) (fun _ _ _ => List.replicate 32 2)
          [104, 101, 108, 108, 111] [112] (List.replicate 16 3)
          (List.replicate 24 4) 100000 = Except.ok ed
      ∧ decryptMnemonic (fun _ _ l => List.replicate l 170)
          (fun _ _ _ => List.replicate 16 1) (fun _ _ _ => List.replicate 32 2)
          ed [112] 100000 = Except.ok [104, 101, 108, 108, 111] := by
  exact encryptMnemonic_decryptMnemonic_roundTrip
    (fun _ _ l => List.replicate l 170) (fun _ _ _ => List.replicate 16 1)
    (fun _ _ _ => List.replicate 32 2) [104, 101, 108, 108, 111] [112]
    (List.replicate 16 3) (List.replicate 24 4) 100000
    (fun _ _ _ => by simp)
    (fun k n l b hb => by have := List.eq_of_mem_replicate hb; omega)
    (fun _ _ _ => by simp)
    (fun k n c b hb => by have := List.eq_of_mem_replicate hb; omega)
    (by decide) (by decide) (by decide)
    (by simp)
    (fun b hb => by have := List.eq_of_mem_replicate hb; omega)
    (by simp)
    (fun b hb => by have := List.eq_of_mem_replicate hb; omega)
    (by omega)
